import Mathlib

/-!
# Verification of `singleton_method_owner_name` (ext/appmap/appmap.c)

The extension function is a four-call chain into the Ruby C API.  The API is
not part of the repository, so it enters the development as a parameter
(`Host`): every theorem about the resolver is stated for an arbitrary host, and
two concrete hosts (`demoHost`, a small Ruby object graph, and `flipHost`, the
same graph with two user-defined methods that write) are used to evaluate the
resolver on explicit inputs.

Conventions of the embedding:

* `VALUE` and `ID` are machine words (`Nat`), as in `ruby.h`;
* `rb_funcall` dispatches a Ruby method: it may raise and it may run arbitrary
  code, so it returns `Except VALUE VALUE` (the raised exception object or the
  returned value) together with the host state it leaves behind;
* `rb_ivar_get`, `rb_mod_name`, `SPECIAL_CONST_P` and `BUILTIN_TYPE` are plain
  reads of the host state;
* a raise unwinds the C frame (`longjmp`), so the statements after a raising
  call are not run: this is the `Except` short-circuit of `HostM.bind`;
* every API call the function makes is appended to a call log, so that
  statements about which calls are made can be expressed.

`Init_appmap`, which registers the function as `AppMap::Hook.singleton_method_owner_name`
with one argument, is registration only and is not modelled.
-/

namespace AppMap

/-- A Ruby value: the machine word `VALUE` of `ruby.h`. -/
abbrev VALUE := Nat

/-- An interned method or variable name: the machine word `ID` of `ruby.h`. -/
abbrev ID := Nat

/-- The part of the Ruby C API that `appmap.c` uses, over a host state `σ`. -/
structure Host (σ : Type) where
  /-- `rb_intern(name)`: the identifier of a name. -/
  rb_intern : String → ID
  /-- `rb_funcall(recv, mid, 0)`: call method `mid` on `recv` without arguments.
  The call returns a value or raises an exception object, and leaves a state. -/
  rb_funcall : σ → VALUE → ID → Except VALUE VALUE × σ
  /-- `rb_ivar_get(obj, id)`: the instance variable `id` of `obj`, `Qnil` when unset. -/
  rb_ivar_get : σ → VALUE → ID → VALUE
  /-- `rb_mod_name(mod)`: the name of a class or module, `Qnil` when anonymous. -/
  rb_mod_name : σ → VALUE → VALUE
  /-- `SPECIAL_CONST_P(obj)`: the value is an immediate, `nil` or `false`. -/
  SPECIAL_CONST_P : VALUE → Bool
  /-- `BUILTIN_TYPE(obj)`: the type tag in the flags of a heap object. -/
  BUILTIN_TYPE : σ → VALUE → Nat
  /-- The tag `T_CLASS`. -/
  T_CLASS : Nat
  /-- The tag `T_MODULE`. -/
  T_MODULE : Nat
  /-- The value `Qnil`. -/
  Qnil : VALUE

/-- One call into the Ruby C API, as recorded in the call log. -/
inductive Call where
  | funcall (recv : VALUE) (mid : ID)
  | ivar_get (obj : VALUE) (id : ID)
  | mod_name (mod : VALUE)
  deriving DecidableEq, Repr

/-- What a run of C code against the host leaves behind: the value returned or
the exception raised, the host state, and the API calls made, in order. -/
structure Outcome (σ : Type) (α : Type) where
  result : Except VALUE α
  state : σ
  trace : List Call

/-- C code running against the host: from a state and the calls made so far to
an outcome. -/
def HostM (σ : Type) (α : Type) : Type := σ → List Call → Outcome σ α

/-- Return a value without touching the host. -/
def HostM.pure {σ α : Type} (a : α) : HostM σ α :=
  fun s t => ⟨.ok a, s, t⟩

/-- Sequencing of C statements: a raise in the first skips the second. -/
def HostM.bind {σ α β : Type} (x : HostM σ α) (f : α → HostM σ β) : HostM σ β :=
  fun s t =>
    match x s t with
    | ⟨.error e, s1, t1⟩ => ⟨.error e, s1, t1⟩
    | ⟨.ok a, s1, t1⟩ => f a s1 t1

instance {σ : Type} : Monad (HostM σ) where
  pure := HostM.pure
  bind := HostM.bind

/-- The call `rb_funcall(recv, mid, 0)`, logged. -/
def rb_funcall {σ : Type} (h : Host σ) (recv : VALUE) (mid : ID) : HostM σ VALUE :=
  fun s t =>
    ⟨(h.rb_funcall s recv mid).1, (h.rb_funcall s recv mid).2, t ++ [Call.funcall recv mid]⟩

/-- The call `rb_ivar_get(obj, id)`, logged. -/
def rb_ivar_get {σ : Type} (h : Host σ) (obj : VALUE) (id : ID) : HostM σ VALUE :=
  fun s t => ⟨.ok (h.rb_ivar_get s obj id), s, t ++ [Call.ivar_get obj id]⟩

/-- The call `rb_mod_name(mod)`, logged. -/
def rb_mod_name {σ : Type} (h : Host σ) (mod : VALUE) : HostM σ VALUE :=
  fun s t => ⟨.ok (h.rb_mod_name s mod), s, t ++ [Call.mod_name mod]⟩

/-- The macro of appmap.c:
`#define CLASS_OR_MODULE_P(obj) (!SPECIAL_CONST_P(obj) &&
   (BUILTIN_TYPE(obj) == T_CLASS || BUILTIN_TYPE(obj) == T_MODULE))`,
read in host state `s`. -/
def CLASS_OR_MODULE_P {σ : Type} (h : Host σ) (s : σ) (obj : VALUE) : Bool :=
  !h.SPECIAL_CONST_P obj &&
    (h.BUILTIN_TYPE s obj == h.T_CLASS || h.BUILTIN_TYPE s obj == h.T_MODULE)

/-- The macro `CLASS_OR_MODULE_P` as a step of a run: a read, not an API call. -/
def classOrModule {σ : Type} (h : Host σ) (obj : VALUE) : HostM σ Bool :=
  fun s t => ⟨.ok (CLASS_OR_MODULE_P h s obj), s, t⟩

/-- The function of appmap.c:
```c
static VALUE singleton_method_owner_name(VALUE klass, VALUE method)
{
  VALUE owner = rb_funcall(method, rb_intern("owner"), 0);
  VALUE attached = rb_ivar_get(owner, rb_intern("__attached__"));
  if (!CLASS_OR_MODULE_P(attached)) {
    attached = rb_funcall(attached, rb_intern("class"), 0);
  }
  return rb_mod_name(attached);
}
``` -/
def singleton_method_owner_name {σ : Type} (h : Host σ) (klass method : VALUE) :
    HostM σ VALUE := do
  let owner ← rb_funcall h method (h.rb_intern "owner")
  let attached ← rb_ivar_get h owner (h.rb_intern "__attached__")
  let attached ←
    if !(← classOrModule h attached) then
      rb_funcall h attached (h.rb_intern "class")
    else
      pure attached
  rb_mod_name h attached

/-- Run the resolver from host state `s` with an empty call log. -/
def run {σ : Type} (h : Host σ) (s : σ) (klass method : VALUE) : Outcome σ VALUE :=
  singleton_method_owner_name h klass method s []

/-! ## A concrete host

A small Ruby object graph, used to evaluate the resolver on explicit inputs.
Type tags, class pointers, method owners and names are fixed; the instance
variable store is the host state.  It holds what the Ruby session

```ruby
class C; def normal; end; def self.class_method; end; end
obj = C.new;        def obj.single; end
anon = Class.new { def normal; end; def self.class_method; end }
anon_obj = anon.new; def anon_obj.single; end
```

leaves behind, with one `Method` object per method defined. -/

/-- A heap object of the concrete host. -/
structure DemoObj where
  /-- The type tag (`T_OBJECT` = 1, `T_CLASS` = 2, `T_STRING` = 5, `T_DATA` = 12). -/
  type : Nat
  /-- What `Kernel#class` answers for the object. -/
  klass : VALUE
  /-- What `owner` answers, for a `Method` object. -/
  owner : Option VALUE
  /-- What `rb_mod_name` answers: a string object, or `Qnil` = 8. -/
  name : VALUE

/-- The class `Object`. -/
def cObject : VALUE := 0x100
/-- The class `Class`. -/
def cClass : VALUE := 0x108
/-- The class `NilClass`. -/
def cNilClass : VALUE := 0x110
/-- The class `Method`. -/
def cMethod : VALUE := 0x118
/-- The class `NoMethodError`. -/
def cNoMethodError : VALUE := 0x120
/-- The class `String`. -/
def cString : VALUE := 0x128
/-- The class `Integer`. -/
def cInteger : VALUE := 0x130
/-- The class `AppMap::Hook`, receiver of the extension function. -/
def cHook : VALUE := 0x138
/-- The named class `C`. -/
def cC : VALUE := 0x200
/-- An anonymous class (`Class.new`). -/
def cAnon : VALUE := 0x208
/-- An instance of `C`. -/
def instC : VALUE := 0x300
/-- An instance of the anonymous class. -/
def instAnon : VALUE := 0x308
/-- The singleton class of `instC`. -/
def sInstC : VALUE := 0x400
/-- The singleton class of `C`. -/
def sC : VALUE := 0x408
/-- The singleton class of `instAnon`. -/
def sInstAnon : VALUE := 0x410
/-- The singleton class of the anonymous class. -/
def sAnon : VALUE := 0x418
/-- The method `C#normal`. -/
def mNormal : VALUE := 0x500
/-- The singleton method `obj.single`. -/
def mSingle : VALUE := 0x508
/-- The class method `C.class_method`. -/
def mClassMethod : VALUE := 0x510
/-- The method `normal` of the anonymous class. -/
def mAnonNormal : VALUE := 0x518
/-- The singleton method `anon_obj.single`. -/
def mAnonSingle : VALUE := 0x520
/-- The class method of the anonymous class. -/
def mAnonClassMethod : VALUE := 0x528
/-- The string `"Object"`. -/
def strObject : VALUE := 0x600
/-- The string `"Class"`. -/
def strClass : VALUE := 0x608
/-- The string `"NilClass"`. -/
def strNilClass : VALUE := 0x610
/-- The string `"Method"`. -/
def strMethod : VALUE := 0x618
/-- The string `"NoMethodError"`. -/
def strNoMethodError : VALUE := 0x620
/-- The string `"String"`. -/
def strString : VALUE := 0x628
/-- The string `"Integer"`. -/
def strInteger : VALUE := 0x630
/-- The string `"AppMap::Hook"`. -/
def strHook : VALUE := 0x638
/-- The string `"C"`. -/
def strC : VALUE := 0x640
/-- The `NoMethodError` exception object raised for an unknown method. -/
def eNoMethod : VALUE := 0x700
/-- The value `Qnil` of a 64-bit Ruby. -/
def demoQnil : VALUE := 8

/-- The heap of the concrete host. -/
def demoObjects : List (VALUE × DemoObj) :=
  [ (cObject, ⟨2, cClass, none, strObject⟩),
    (cClass, ⟨2, cClass, none, strClass⟩),
    (cNilClass, ⟨2, cClass, none, strNilClass⟩),
    (cMethod, ⟨2, cClass, none, strMethod⟩),
    (cNoMethodError, ⟨2, cClass, none, strNoMethodError⟩),
    (cString, ⟨2, cClass, none, strString⟩),
    (cInteger, ⟨2, cClass, none, strInteger⟩),
    (cHook, ⟨2, cClass, none, strHook⟩),
    (cC, ⟨2, cClass, none, strC⟩),
    (cAnon, ⟨2, cClass, none, demoQnil⟩),
    (instC, ⟨1, cC, none, demoQnil⟩),
    (instAnon, ⟨1, cAnon, none, demoQnil⟩),
    (sInstC, ⟨2, cClass, none, demoQnil⟩),
    (sC, ⟨2, cClass, none, demoQnil⟩),
    (sInstAnon, ⟨2, cClass, none, demoQnil⟩),
    (sAnon, ⟨2, cClass, none, demoQnil⟩),
    (mNormal, ⟨12, cMethod, some cC, demoQnil⟩),
    (mSingle, ⟨12, cMethod, some sInstC, demoQnil⟩),
    (mClassMethod, ⟨12, cMethod, some sC, demoQnil⟩),
    (mAnonNormal, ⟨12, cMethod, some cAnon, demoQnil⟩),
    (mAnonSingle, ⟨12, cMethod, some sInstAnon, demoQnil⟩),
    (mAnonClassMethod, ⟨12, cMethod, some sAnon, demoQnil⟩),
    (strObject, ⟨5, cString, none, demoQnil⟩),
    (strClass, ⟨5, cString, none, demoQnil⟩),
    (strNilClass, ⟨5, cString, none, demoQnil⟩),
    (strMethod, ⟨5, cString, none, demoQnil⟩),
    (strNoMethodError, ⟨5, cString, none, demoQnil⟩),
    (strString, ⟨5, cString, none, demoQnil⟩),
    (strInteger, ⟨5, cString, none, demoQnil⟩),
    (strHook, ⟨5, cString, none, demoQnil⟩),
    (strC, ⟨5, cString, none, demoQnil⟩),
    (eNoMethod, ⟨1, cNoMethodError, none, demoQnil⟩) ]

/-- The characters of the string objects of the concrete host. -/
def demoStrings : List (VALUE × String) :=
  [ (strObject, "Object"), (strClass, "Class"), (strNilClass, "NilClass"),
    (strMethod, "Method"), (strNoMethodError, "NoMethodError"), (strString, "String"),
    (strInteger, "Integer"), (strHook, "AppMap::Hook"), (strC, "C") ]

/-- The characters of a string object, if the value is one. -/
def demoString (v : VALUE) : Option String :=
  demoStrings.lookup v

/-- The state of the concrete host: the instance variables set, as
(object, name, value) entries. -/
abbrev DemoState := List (VALUE × ID × VALUE)

/-- The identifiers of the concrete host. -/
def demoIntern (name : String) : ID :=
  if name = "owner" then 1
  else if name = "__attached__" then 2
  else if name = "class" then 3
  else 0

/-- The instance variables after the session above: each singleton class
records the object it was made for under `__attached__`. -/
def demoHeap : DemoState :=
  [ (sInstC, 2, instC), (sC, 2, cC), (sInstAnon, 2, instAnon), (sAnon, 2, cAnon) ]

/-- The macro `SPECIAL_CONST_P` of a 64-bit Ruby: an immediate (one of the low
three bits set), `Qfalse` = 0 or `Qnil` = 8. -/
def demoSpecialConst (v : VALUE) : Bool :=
  v % 8 != 0 || v == 0 || v == 8

/-- What `Kernel#class` answers: `NilClass` for `nil`, `Integer` for a fixnum,
the class pointer for a heap object; any other value answers `Object`. -/
def demoClassOf (v : VALUE) : VALUE :=
  if v = demoQnil then cNilClass
  else if v % 2 = 1 then cInteger
  else match demoObjects.lookup v with
    | some o => o.klass
    | none => cObject

/-- Method dispatch of the concrete host: `class` is answered for every value,
`owner` by `Method` objects only; anything else raises `NoMethodError`.
No dispatch changes the instance variables. -/
def demoFuncall (s : DemoState) (recv : VALUE) (mid : ID) : Except VALUE VALUE × DemoState :=
  if mid = 3 then (.ok (demoClassOf recv), s)
  else if mid = 1 then
    match (demoObjects.lookup recv).bind DemoObj.owner with
    | some o => (.ok o, s)
    | none => (.error eNoMethod, s)
  else (.error eNoMethod, s)

/-- Instance variable lookup of the concrete host: `Qnil` when unset. -/
def demoIvarGet (s : DemoState) (o : VALUE) (id : ID) : VALUE :=
  match s.find? (fun e => e.1 == o && e.2.1 == id) with
  | some e => e.2.2
  | none => demoQnil

/-- The name of a class of the concrete host, `Qnil` for anything else. -/
def demoModName (v : VALUE) : VALUE :=
  match demoObjects.lookup v with
  | some o => o.name
  | none => demoQnil

/-- The type tag of a heap object of the concrete host (`T_NONE` = 0 off the heap). -/
def demoBuiltinType (v : VALUE) : Nat :=
  match demoObjects.lookup v with
  | some o => o.type
  | none => 0

/-- The concrete host. -/
def demoHost : Host DemoState where
  rb_intern := demoIntern
  rb_funcall := demoFuncall
  rb_ivar_get := demoIvarGet
  rb_mod_name := fun _ v => demoModName v
  SPECIAL_CONST_P := demoSpecialConst
  BUILTIN_TYPE := fun _ v => demoBuiltinType v
  T_CLASS := 2
  T_MODULE := 3
  Qnil := demoQnil

/-! ## A host with methods that write

The concrete host above, after the further Ruby session

```ruby
flip = C.new
def flip.class; if @seen then String else @seen = true; C end end
probe = Object.new
def probe.owner; @asked = true; raise NoMethodError; end
```

`flip.method(:class)` is a method handle like any other; what differs is that
the `class` method of `flip`, which the resolver dispatches with `rb_funcall`,
is the user's own.  Every other dispatch behaves as in the concrete host. -/

/-- The instance `flip` of `C`, with its own `class` method. -/
def instFlip : VALUE := 0x310
/-- The object `probe`, with its own `owner` method. -/
def probe : VALUE := 0x318
/-- The singleton class of `flip`. -/
def sInstFlip : VALUE := 0x420
/-- The singleton class of `probe`. -/
def sProbe : VALUE := 0x428
/-- The method handle `flip.method(:class)`. -/
def mFlip : VALUE := 0x530
/-- The value `Qtrue` of a 64-bit Ruby. -/
def demoQtrue : VALUE := 0x14
/-- The identifier of the instance variable `@seen`. -/
def idSeen : ID := 4
/-- The identifier of the instance variable `@asked`. -/
def idAsked : ID := 5

/-- The heap of the second host: the heap of the first and the new objects. -/
def flipObjects : List (VALUE × DemoObj) :=
  [ (instFlip, ⟨1, cC, none, demoQnil⟩),
    (probe, ⟨1, cObject, none, demoQnil⟩),
    (sInstFlip, ⟨2, cClass, none, demoQnil⟩),
    (sProbe, ⟨2, cClass, none, demoQnil⟩),
    (mFlip, ⟨12, cMethod, some sInstFlip, demoQnil⟩) ] ++ demoObjects

/-- The instance variables after both sessions: `@seen` and `@asked` are unset. -/
def flipHeap : DemoState :=
  [ (sInstFlip, 2, instFlip), (sProbe, 2, probe) ] ++ demoHeap

/-- What the built-in `Kernel#class` answers in the second host. -/
def flipClassOf (v : VALUE) : VALUE :=
  if v = demoQnil then cNilClass
  else if v % 2 = 1 then cInteger
  else match flipObjects.lookup v with
    | some o => o.klass
    | none => cObject

/-- Method dispatch of the second host.  `flip.class` sets `@seen` and answers
`C` the first time and answers `String` once `@seen` is set; `probe.owner` sets
`@asked` and raises `NoMethodError`; every other dispatch is the built-in one
and leaves the instance variables as they are. -/
def flipFuncall (s : DemoState) (recv : VALUE) (mid : ID) : Except VALUE VALUE × DemoState :=
  if recv = instFlip ∧ mid = 3 then
    if demoIvarGet s instFlip idSeen = demoQnil then
      (.ok cC, (instFlip, idSeen, demoQtrue) :: s)
    else (.ok cString, s)
  else if recv = probe ∧ mid = 1 then
    (.error eNoMethod, (probe, idAsked, demoQtrue) :: s)
  else if mid = 3 then (.ok (flipClassOf recv), s)
  else if mid = 1 then
    match (flipObjects.lookup recv).bind DemoObj.owner with
    | some o => (.ok o, s)
    | none => (.error eNoMethod, s)
  else (.error eNoMethod, s)

/-- The name of a class of the second host, `Qnil` for anything else. -/
def flipModName (v : VALUE) : VALUE :=
  match flipObjects.lookup v with
  | some o => o.name
  | none => demoQnil

/-- The type tag of a heap object of the second host. -/
def flipBuiltinType (v : VALUE) : Nat :=
  match flipObjects.lookup v with
  | some o => o.type
  | none => 0

/-- The second host. -/
def flipHost : Host DemoState where
  rb_intern := demoIntern
  rb_funcall := flipFuncall
  rb_ivar_get := demoIvarGet
  rb_mod_name := fun _ v => flipModName v
  SPECIAL_CONST_P := demoSpecialConst
  BUILTIN_TYPE := fun _ v => flipBuiltinType v
  T_CLASS := 2
  T_MODULE := 3
  Qnil := demoQnil

/-! ## Conditions on the host -/

/-- The method dispatches that a call of the resolver on `m` makes from state
`s` leave the host state as it was: the `owner` dispatch on `m`, and, when that
answers `o` and the `__attached__` value of `o` is not a class or module, the
`class` dispatch on that value.  Nothing is asked of any other receiver, method
or state. -/
def QueriesReadOnlyAt {σ : Type} (h : Host σ) (s : σ) (m : VALUE) : Prop :=
  match h.rb_funcall s m (h.rb_intern "owner") with
  | (.error _, s1) => s1 = s
  | (.ok o, s1) =>
    s1 = s ∧
    (CLASS_OR_MODULE_P h s1 (h.rb_ivar_get s1 o (h.rb_intern "__attached__")) = false →
      (h.rb_funcall s1 (h.rb_ivar_get s1 o (h.rb_intern "__attached__"))
        (h.rb_intern "class")).2 = s1)

/-- Whenever the `class` query returns, what it returns is a class or module. -/
def ClassQueryAnswersClass {σ : Type} (h : Host σ) : Prop :=
  ∀ (s s1 : σ) (v c : VALUE),
    h.rb_funcall s v (h.rb_intern "class") = (.ok c, s1) → CLASS_OR_MODULE_P h s1 c = true

/-! ## The four runs of the resolver -/

section Runs

variable {σ : Type}

/-- The `owner` call raises: the run stops there with that exception. -/
theorem run_owner_raises (h : Host σ) (s s1 : σ) (klass m e : VALUE)
    (hown : h.rb_funcall s m (h.rb_intern "owner") = (.error e, s1)) :
    run h s klass m = ⟨.error e, s1, [Call.funcall m (h.rb_intern "owner")]⟩ := by
  simp [run, singleton_method_owner_name, bind, HostM.bind, rb_funcall, hown]

/-- The attached value is a class or module: it is named directly. -/
theorem run_direct (h : Host σ) (s s1 : σ) (klass m o : VALUE)
    (hown : h.rb_funcall s m (h.rb_intern "owner") = (.ok o, s1))
    (hcm : CLASS_OR_MODULE_P h s1 (h.rb_ivar_get s1 o (h.rb_intern "__attached__")) = true) :
    run h s klass m =
      ⟨.ok (h.rb_mod_name s1 (h.rb_ivar_get s1 o (h.rb_intern "__attached__"))), s1,
        [Call.funcall m (h.rb_intern "owner"), Call.ivar_get o (h.rb_intern "__attached__"),
         Call.mod_name (h.rb_ivar_get s1 o (h.rb_intern "__attached__"))]⟩ := by
  simp [run, singleton_method_owner_name, bind, HostM.bind, rb_funcall, rb_ivar_get, rb_mod_name,
    classOrModule, pure, HostM.pure, hown, hcm]

/-- The attached value is not a class or module and its `class` call raises. -/
theorem run_class_raises (h : Host σ) (s s1 s2 : σ) (klass m o e : VALUE)
    (hown : h.rb_funcall s m (h.rb_intern "owner") = (.ok o, s1))
    (hcm : CLASS_OR_MODULE_P h s1 (h.rb_ivar_get s1 o (h.rb_intern "__attached__")) = false)
    (hcls : h.rb_funcall s1 (h.rb_ivar_get s1 o (h.rb_intern "__attached__"))
      (h.rb_intern "class") = (.error e, s2)) :
    run h s klass m =
      ⟨.error e, s2,
        [Call.funcall m (h.rb_intern "owner"), Call.ivar_get o (h.rb_intern "__attached__"),
         Call.funcall (h.rb_ivar_get s1 o (h.rb_intern "__attached__"))
           (h.rb_intern "class")]⟩ := by
  simp [run, singleton_method_owner_name, bind, HostM.bind, rb_funcall, rb_ivar_get, rb_mod_name,
    classOrModule, pure, HostM.pure, hown, hcm, hcls]

/-- The attached value is not a class or module and its `class` call returns:
what it returns is named. -/
theorem run_class_returns (h : Host σ) (s s1 s2 : σ) (klass m o c : VALUE)
    (hown : h.rb_funcall s m (h.rb_intern "owner") = (.ok o, s1))
    (hcm : CLASS_OR_MODULE_P h s1 (h.rb_ivar_get s1 o (h.rb_intern "__attached__")) = false)
    (hcls : h.rb_funcall s1 (h.rb_ivar_get s1 o (h.rb_intern "__attached__"))
      (h.rb_intern "class") = (.ok c, s2)) :
    run h s klass m =
      ⟨.ok (h.rb_mod_name s2 c), s2,
        [Call.funcall m (h.rb_intern "owner"), Call.ivar_get o (h.rb_intern "__attached__"),
         Call.funcall (h.rb_ivar_get s1 o (h.rb_intern "__attached__")) (h.rb_intern "class"),
         Call.mod_name c]⟩ := by
  simp [run, singleton_method_owner_name, bind, HostM.bind, rb_funcall, rb_ivar_get, rb_mod_name,
    classOrModule, pure, HostM.pure, hown, hcm, hcls]

/-- When the dispatches the run makes are read-only, the run ends in the state
it started from. -/
theorem run_state_of_readOnlyAt (h : Host σ) (s : σ) (klass m : VALUE)
    (hro : QueriesReadOnlyAt h s m) : (run h s klass m).state = s := by
  unfold QueriesReadOnlyAt at hro
  rcases hown : h.rb_funcall s m (h.rb_intern "owner") with ⟨r, s1⟩
  rw [hown] at hro
  cases r with
  | error e =>
    have h1 : s1 = s := hro
    rw [run_owner_raises h s s1 klass m e hown]
    exact h1
  | ok o =>
    have h1 : s1 = s := hro.1
    have h2 := hro.2
    cases hcm : CLASS_OR_MODULE_P h s1 (h.rb_ivar_get s1 o (h.rb_intern "__attached__")) with
    | true =>
      rw [run_direct h s s1 klass m o hown hcm]
      exact h1
    | false =>
      have h3 := h2 hcm
      rcases hcls : h.rb_funcall s1 (h.rb_ivar_get s1 o (h.rb_intern "__attached__"))
        (h.rb_intern "class") with ⟨r2, s2⟩
      rw [hcls] at h3
      have h4 : s2 = s1 := h3
      cases r2 with
      | error e =>
        rw [run_class_raises h s s1 s2 klass m o e hown hcm hcls]
        exact h4.trans h1
      | ok c =>
        rw [run_class_returns h s s1 s2 klass m o c hown hcm hcls]
        exact h4.trans h1

end Runs

/-! ## Facts about the concrete host -/

/-- A value found by `List.lookup` is the value of an entry of the list. -/
theorem lookup_mem {α : Type} (k : VALUE) (a : α) :
    ∀ (l : List (VALUE × α)), l.lookup k = some a → (k, a) ∈ l := by
  intro l
  induction l with
  | nil => intro hl; simp at hl
  | cons e l ih =>
    intro hl
    obtain ⟨k1, a1⟩ := e
    by_cases hk : k = k1
    · subst hk
      simp [List.lookup] at hl
      simp [hl]
    · have hb : (k == k1) = false := by simpa using hk
      simp only [List.lookup, hb] at hl
      exact List.mem_cons_of_mem _ (ih hl)

/-- The class pointer of every heap object of the concrete host is a class. -/
theorem demo_klass_is_class (s : DemoState) (v : VALUE) (o : DemoObj)
    (hv : demoObjects.lookup v = some o) : CLASS_OR_MODULE_P demoHost s o.klass = true := by
  have hall : ∀ e ∈ demoObjects, CLASS_OR_MODULE_P demoHost [] e.2.klass = true := by decide
  exact hall (v, o) (lookup_mem v o demoObjects hv)

/-- What `Kernel#class` answers in the concrete host is a class. -/
theorem demo_classOf_is_class (s : DemoState) (v : VALUE) :
    CLASS_OR_MODULE_P demoHost s (demoClassOf v) = true := by
  unfold demoClassOf
  split
  · rfl
  · split
    · rfl
    · split
      · next o ho => exact demo_klass_is_class s v o ho
      · rfl

/-- The `class` query of the concrete host answers classes. -/
theorem demoHost_classQuery : ClassQueryAnswersClass demoHost := by
  intro s s1 v c hc
  have h3 : demoFuncall s v 3 = (.ok c, s1) := hc
  have h4 : demoFuncall s v 3 = (.ok (demoClassOf v), s) := rfl
  rw [h4] at h3
  have hc1 : demoClassOf v = c := by
    have := congrArg Prod.fst h3
    simpa using this
  subst hc1
  exact demo_classOf_is_class s1 v

/-! ## The claims -/

section Claims

variable {σ : Type}

/-- C1: for a singleton method `m` defined on an object instance `inst` (the
owner query answers the singleton class `o`, whose `__attached__` is `inst`, and
`inst` is not itself a class or module) whose class query answers `C`, the
resolver returns the name of `C`; it does not return the name of the singleton
class `o` when that differs. -/
theorem singleton_method_on_instance_returns_class_name (h : Host σ) (s s1 s2 : σ)
    (klass m o inst C name : VALUE)
    (hown : h.rb_funcall s m (h.rb_intern "owner") = (.ok o, s1))
    (hatt : h.rb_ivar_get s1 o (h.rb_intern "__attached__") = inst)
    (hinst : CLASS_OR_MODULE_P h s1 inst = false)
    (hcls : h.rb_funcall s1 inst (h.rb_intern "class") = (.ok C, s2))
    (hname : h.rb_mod_name s2 C = name) :
    (run h s klass m).result = .ok name ∧
      (h.rb_mod_name s2 o ≠ name → (run h s klass m).result ≠ .ok (h.rb_mod_name s2 o)) := by
  subst hatt
  subst hname
  rw [run_class_returns h s s1 s2 klass m o C hown hinst hcls]
  refine ⟨rfl, ?_⟩
  intro hne heq
  exact hne (Except.ok.inj heq).symm

/-- C1 at `obj.single` of the concrete host, `obj` an instance of `C`: the
result is the string "C", while the singleton class of `obj` has no name. -/
theorem singleton_method_on_instance_returns_class_name_witness :
    demoHost.rb_funcall demoHeap mSingle (demoHost.rb_intern "owner") = (.ok sInstC, demoHeap) ∧
    demoHost.rb_ivar_get demoHeap sInstC (demoHost.rb_intern "__attached__") = instC ∧
    CLASS_OR_MODULE_P demoHost demoHeap instC = false ∧
    demoHost.rb_funcall demoHeap instC (demoHost.rb_intern "class") = (.ok cC, demoHeap) ∧
    demoHost.rb_mod_name demoHeap cC = strC ∧
    demoString strC = some "C" ∧
    demoHost.rb_mod_name demoHeap sInstC = demoQnil ∧
    (run demoHost demoHeap cHook mSingle).result = .ok strC :=
  ⟨rfl, rfl, rfl, rfl, rfl, by decide, rfl,
    (singleton_method_on_instance_returns_class_name demoHost demoHeap demoHeap demoHeap
      cHook mSingle sInstC instC cC strC rfl rfl rfl rfl rfl).1⟩

/-- C2, refuted as stated: `C#normal` of the concrete host is defined on the
class named "C", which has no `__attached__`, and the resolver returns the
string "NilClass", not the name of `C`. -/
theorem normal_method_not_named_after_its_class :
    demoHost.rb_funcall demoHeap mNormal (demoHost.rb_intern "owner") = (.ok cC, demoHeap) ∧
    demoHost.rb_ivar_get demoHeap cC (demoHost.rb_intern "__attached__") = demoHost.Qnil ∧
    demoString (demoHost.rb_mod_name demoHeap cC) = some "C" ∧
    (run demoHost demoHeap cHook mNormal).result = .ok strNilClass ∧
    demoString strNilClass = some "NilClass" ∧
    (run demoHost demoHeap cHook mNormal).result ≠ .ok (demoHost.rb_mod_name demoHeap cC) := by
  refine ⟨rfl, rfl, by decide, rfl, by decide, ?_⟩
  intro heq
  have h1 : (run demoHost demoHeap cHook mNormal).result = .ok strNilClass := rfl
  rw [h1] at heq
  have h2 : strNilClass = demoHost.rb_mod_name demoHeap cC := Except.ok.inj heq
  exact absurd h2 (by decide)

/-- C2, amended: for a method `m` defined normally on a class `C` (the owner
query answers `C`, and `C` has no `__attached__`, so the lookup yields `nil`),
the resolver returns the name of the class that the class query answers for
`nil`; it returns the name of `C` only if that is the same name. -/
theorem normal_method_returns_name_of_class_of_nil (h : Host σ) (s s1 s2 : σ)
    (klass m C N : VALUE)
    (hown : h.rb_funcall s m (h.rb_intern "owner") = (.ok C, s1))
    (hatt : h.rb_ivar_get s1 C (h.rb_intern "__attached__") = h.Qnil)
    (hnil : h.SPECIAL_CONST_P h.Qnil = true)
    (hcls : h.rb_funcall s1 h.Qnil (h.rb_intern "class") = (.ok N, s2)) :
    (run h s klass m).result = .ok (h.rb_mod_name s2 N) ∧
    ((run h s klass m).result = .ok (h.rb_mod_name s2 C) →
      h.rb_mod_name s2 C = h.rb_mod_name s2 N) := by
  have hcm : CLASS_OR_MODULE_P h s1 (h.rb_ivar_get s1 C (h.rb_intern "__attached__")) = false := by
    simp [CLASS_OR_MODULE_P, hatt, hnil]
  rw [← hatt] at hcls
  rw [run_class_returns h s s1 s2 klass m C N hown hcm hcls]
  refine ⟨rfl, ?_⟩
  intro heq
  exact (Except.ok.inj heq).symm

/-- C2 amended, at `C#normal` of the concrete host: the result is the name of
`NilClass`, the string "NilClass". -/
theorem normal_method_returns_name_of_class_of_nil_witness :
    demoHost.rb_funcall demoHeap mNormal (demoHost.rb_intern "owner") = (.ok cC, demoHeap) ∧
    demoHost.rb_ivar_get demoHeap cC (demoHost.rb_intern "__attached__") = demoHost.Qnil ∧
    demoHost.SPECIAL_CONST_P demoHost.Qnil = true ∧
    demoHost.rb_funcall demoHeap demoHost.Qnil (demoHost.rb_intern "class")
      = (.ok cNilClass, demoHeap) ∧
    (run demoHost demoHeap cHook mNormal).result
      = .ok (demoHost.rb_mod_name demoHeap cNilClass) ∧
    demoString (demoHost.rb_mod_name demoHeap cNilClass) = some "NilClass" :=
  ⟨rfl, rfl, rfl, rfl,
    (normal_method_returns_name_of_class_of_nil demoHost demoHeap demoHeap demoHeap
      cHook mNormal cC cNilClass rfl rfl rfl rfl).1, by decide⟩

/-- C3, refuted as stated: `C.class_method` of the concrete host has the
singleton class of `C` as owner, whose `__attached__` is the class `C`; the
class of `C` is `Class`, and the resolver returns the string "C", not "Class". -/
theorem class_method_not_named_after_class_of_class :
    demoHost.rb_funcall demoHeap mClassMethod (demoHost.rb_intern "owner")
      = (.ok sC, demoHeap) ∧
    demoHost.rb_ivar_get demoHeap sC (demoHost.rb_intern "__attached__") = cC ∧
    CLASS_OR_MODULE_P demoHost demoHeap cC = true ∧
    demoHost.rb_funcall demoHeap cC (demoHost.rb_intern "class") = (.ok cClass, demoHeap) ∧
    demoString (demoHost.rb_mod_name demoHeap cClass) = some "Class" ∧
    (run demoHost demoHeap cHook mClassMethod).result = .ok strC ∧
    demoString strC = some "C" ∧
    (run demoHost demoHeap cHook mClassMethod).result
      ≠ .ok (demoHost.rb_mod_name demoHeap cClass) := by
  refine ⟨rfl, rfl, rfl, rfl, by decide, rfl, by decide, ?_⟩
  intro heq
  have h1 : (run demoHost demoHeap cHook mClassMethod).result = .ok strC := rfl
  rw [h1] at heq
  have h2 : strC = demoHost.rb_mod_name demoHeap cClass := Except.ok.inj heq
  exact absurd h2 (by decide)

/-- C3, amended: for a singleton method `m` defined on a class value `C` (the
owner query answers the singleton class `o`, whose `__attached__` is `C`, a
class or module), the resolver takes the class-or-module branch (its calls are
the owner query, the attached lookup and the naming of `C`, with no class query)
and returns the name of `C` itself. -/
theorem class_method_returns_name_of_the_class (h : Host σ) (s s1 : σ)
    (klass m o C : VALUE)
    (hown : h.rb_funcall s m (h.rb_intern "owner") = (.ok o, s1))
    (hatt : h.rb_ivar_get s1 o (h.rb_intern "__attached__") = C)
    (hC : CLASS_OR_MODULE_P h s1 C = true) :
    (run h s klass m).result = .ok (h.rb_mod_name s1 C) ∧
    (run h s klass m).trace =
      [Call.funcall m (h.rb_intern "owner"), Call.ivar_get o (h.rb_intern "__attached__"),
       Call.mod_name C] := by
  subst hatt
  rw [run_direct h s s1 klass m o hown hC]
  exact ⟨rfl, rfl⟩

/-- C3 amended, at `C.class_method` of the concrete host. -/
theorem class_method_returns_name_of_the_class_witness :
    demoHost.rb_funcall demoHeap mClassMethod (demoHost.rb_intern "owner")
      = (.ok sC, demoHeap) ∧
    demoHost.rb_ivar_get demoHeap sC (demoHost.rb_intern "__attached__") = cC ∧
    CLASS_OR_MODULE_P demoHost demoHeap cC = true ∧
    (run demoHost demoHeap cHook mClassMethod).result
      = .ok (demoHost.rb_mod_name demoHeap cC) ∧
    (run demoHost demoHeap cHook mClassMethod).trace =
      [Call.funcall mClassMethod (demoHost.rb_intern "owner"),
       Call.ivar_get sC (demoHost.rb_intern "__attached__"), Call.mod_name cC] :=
  ⟨rfl, rfl, rfl,
    class_method_returns_name_of_the_class demoHost demoHeap demoHeap
      cHook mClassMethod sC cC rfl rfl rfl⟩

/-- C4, refuted as stated: the method `normal` of the anonymous class of the
concrete host has an owner without a name (`rb_mod_name` answers `nil` for it),
and the resolver returns the string "NilClass", not `nil`. -/
theorem anonymous_owner_not_answered_with_nil :
    demoHost.rb_funcall demoHeap mAnonNormal (demoHost.rb_intern "owner")
      = (.ok cAnon, demoHeap) ∧
    CLASS_OR_MODULE_P demoHost demoHeap cAnon = true ∧
    demoHost.rb_mod_name demoHeap cAnon = demoHost.Qnil ∧
    (run demoHost demoHeap cHook mAnonNormal).result = .ok strNilClass ∧
    demoString strNilClass = some "NilClass" ∧
    (run demoHost demoHeap cHook mAnonNormal).result ≠ .ok demoHost.Qnil := by
  refine ⟨rfl, rfl, rfl, rfl, by decide, ?_⟩
  intro heq
  have h1 : (run demoHost demoHeap cHook mAnonNormal).result = .ok strNilClass := rfl
  rw [h1] at heq
  have h2 : strNilClass = demoHost.Qnil := Except.ok.inj heq
  exact absurd h2 (by decide)

/-- C4, amended: when the owner query answers `o` and the subject the resolver
names is anonymous (`rb_mod_name` answers `nil` for it), the resolver completes
without failure and returns `nil`.  The subject is the `__attached__` value of
`o` when that is a class or module, and otherwise the class that the class
query answers for that value. -/
theorem anonymous_subject_returns_nil (h : Host σ) (s s1 : σ) (klass m o : VALUE)
    (hown : h.rb_funcall s m (h.rb_intern "owner") = (.ok o, s1)) :
    (CLASS_OR_MODULE_P h s1 (h.rb_ivar_get s1 o (h.rb_intern "__attached__")) = true →
      h.rb_mod_name s1 (h.rb_ivar_get s1 o (h.rb_intern "__attached__")) = h.Qnil →
      (run h s klass m).result = .ok h.Qnil) ∧
    (CLASS_OR_MODULE_P h s1 (h.rb_ivar_get s1 o (h.rb_intern "__attached__")) = false →
      ∀ (c : VALUE) (s2 : σ),
        h.rb_funcall s1 (h.rb_ivar_get s1 o (h.rb_intern "__attached__"))
          (h.rb_intern "class") = (.ok c, s2) →
        h.rb_mod_name s2 c = h.Qnil →
        (run h s klass m).result = .ok h.Qnil) := by
  constructor
  · intro hcm hanon
    rw [run_direct h s s1 klass m o hown hcm, hanon]
  · intro hcm c s2 hcls hanon
    rw [run_class_returns h s s1 s2 klass m o c hown hcm hcls, hanon]

/-- C4 amended, at the concrete host: the singleton method of an instance of
the anonymous class, and the class method of the anonymous class, both resolve
to `nil`. -/
theorem anonymous_subject_returns_nil_witness :
    demoHost.rb_funcall demoHeap mAnonSingle (demoHost.rb_intern "owner")
      = (.ok sInstAnon, demoHeap) ∧
    demoHost.rb_funcall demoHeap mAnonClassMethod (demoHost.rb_intern "owner")
      = (.ok sAnon, demoHeap) ∧
    (run demoHost demoHeap cHook mAnonSingle).result = .ok demoQnil ∧
    (run demoHost demoHeap cHook mAnonClassMethod).result = .ok demoQnil :=
  ⟨rfl, rfl,
    (anonymous_subject_returns_nil demoHost demoHeap demoHeap cHook mAnonSingle sInstAnon
      rfl).2 rfl cAnon demoHeap rfl rfl,
    (anonymous_subject_returns_nil demoHost demoHeap demoHeap cHook mAnonClassMethod sAnon
      rfl).1 rfl rfl⟩

/-- C5: when the owner query on the argument raises `e`, the resolver raises
exactly `e`, returns no value, and the owner query is the only call it makes:
no `__attached__` lookup, no class query, no naming call. -/
theorem owner_failure_propagates (h : Host σ) (s s1 : σ) (klass m e : VALUE)
    (hown : h.rb_funcall s m (h.rb_intern "owner") = (.error e, s1)) :
    (run h s klass m).result = .error e ∧
    (∀ v : VALUE, (run h s klass m).result ≠ .ok v) ∧
    (run h s klass m).trace = [Call.funcall m (h.rb_intern "owner")] ∧
    (run h s klass m).state = s1 := by
  rw [run_owner_raises h s s1 klass m e hown]
  refine ⟨rfl, ?_, rfl, rfl⟩
  intro v hv
  cases hv

/-- C5 at the concrete host, with arguments that are not method handles (a
plain object, the fixnum 1, `nil`): the resolver raises the `NoMethodError`
that the owner query raised. -/
theorem owner_failure_propagates_witness :
    demoHost.rb_funcall demoHeap instC (demoHost.rb_intern "owner")
      = (.error eNoMethod, demoHeap) ∧
    (run demoHost demoHeap cHook instC).result = .error eNoMethod ∧
    (run demoHost demoHeap cHook instC).trace
      = [Call.funcall instC (demoHost.rb_intern "owner")] ∧
    (run demoHost demoHeap cHook 3).result = .error eNoMethod ∧
    (run demoHost demoHeap cHook demoQnil).result = .error eNoMethod :=
  ⟨rfl,
    (owner_failure_propagates demoHost demoHeap demoHeap cHook instC eNoMethod rfl).1,
    (owner_failure_propagates demoHost demoHeap demoHeap cHook instC eNoMethod rfl).2.2.1,
    (owner_failure_propagates demoHost demoHeap demoHeap cHook 3 eNoMethod rfl).1,
    (owner_failure_propagates demoHost demoHeap demoHeap cHook demoQnil eNoMethod rfl).1⟩

/-- C6, refuted as stated: in the second host `flip.method(:class)` is a
method handle whose owner is the singleton class of `flip`; the first call of
the resolver on it returns the string "C", and the second call, made in the
state the first one left, returns the string "String". -/
theorem successive_calls_can_differ :
    flipHost.rb_funcall flipHeap mFlip (flipHost.rb_intern "owner")
      = (.ok sInstFlip, flipHeap) ∧
    flipHost.rb_ivar_get flipHeap sInstFlip (flipHost.rb_intern "__attached__") = instFlip ∧
    (run flipHost flipHeap cHook mFlip).result = .ok strC ∧
    (run flipHost (run flipHost flipHeap cHook mFlip).state cHook mFlip).result
      = .ok strString ∧
    demoString strC = some "C" ∧ demoString strString = some "String" ∧
    (run flipHost (run flipHost flipHeap cHook mFlip).state cHook mFlip).result
      ≠ (run flipHost flipHeap cHook mFlip).result := by
  refine ⟨rfl, rfl, rfl, rfl, by decide, by decide, ?_⟩
  intro heq
  have h1 : (run flipHost flipHeap cHook mFlip).result = .ok strC := rfl
  have h2 : (run flipHost (run flipHost flipHeap cHook mFlip).state cHook mFlip).result
      = .ok strString := rfl
  rw [h1, h2] at heq
  have h3 : strString = strC := Except.ok.inj heq
  exact absurd h3 (by decide)

/-- C6, amended: when the method dispatches that the call on `m` makes from
state `s` (the owner query on `m`, and the class query on the attached value
when it is made) leave the host state as it was, a second call of the resolver
on `m`, made in the state the first call left, gives the same result as the
first (the same name, the same `nil`, or the same exception) and makes the same
calls. -/
theorem resolver_idempotent (h : Host σ) (s : σ) (klass m : VALUE)
    (hro : QueriesReadOnlyAt h s m) :
    (run h (run h s klass m).state klass m).result = (run h s klass m).result ∧
    (run h (run h s klass m).state klass m).trace = (run h s klass m).trace := by
  rw [run_state_of_readOnlyAt h s klass m hro]
  exact ⟨rfl, rfl⟩

/-- C6 amended, in the second host (where other dispatches do write):
`obj.single` resolves to the string "C" on the first call and again on the
second. -/
theorem resolver_idempotent_witness :
    QueriesReadOnlyAt flipHost flipHeap mSingle ∧
    (run flipHost flipHeap cHook mSingle).result = .ok strC ∧
    (run flipHost (run flipHost flipHeap cHook mSingle).state cHook mSingle).result
      = (run flipHost flipHeap cHook mSingle).result :=
  ⟨⟨rfl, fun _ => rfl⟩, rfl,
    (resolver_idempotent flipHost flipHeap cHook mSingle ⟨rfl, fun _ => rfl⟩).1⟩

/-- C7, refuted as stated: in the second host the call on `flip.method(:class)`
returns the string "C" and leaves `@seen` set on `flip`, and the call on
`probe`, which is not a method handle, raises and leaves `@asked` set on
`probe`: in both the host state after the call differs from the one before. -/
theorem resolver_can_change_state :
    (run flipHost flipHeap cHook mFlip).result = .ok strC ∧
    (run flipHost flipHeap cHook mFlip).state = (instFlip, idSeen, demoQtrue) :: flipHeap ∧
    (run flipHost flipHeap cHook mFlip).state ≠ flipHeap ∧
    (run flipHost flipHeap cHook probe).result = .error eNoMethod ∧
    (run flipHost flipHeap cHook probe).state = (probe, idAsked, demoQtrue) :: flipHeap ∧
    (run flipHost flipHeap cHook probe).state ≠ flipHeap := by
  refine ⟨rfl, rfl, ?_, rfl, rfl, ?_⟩
  · have h1 : (run flipHost flipHeap cHook mFlip).state
        = (instFlip, idSeen, demoQtrue) :: flipHeap := rfl
    rw [h1]
    decide
  · have h1 : (run flipHost flipHeap cHook probe).state
        = (probe, idAsked, demoQtrue) :: flipHeap := rfl
    rw [h1]
    decide

/-- C7, amended: when the method dispatches that the call on `m` makes from
state `s` (the owner query on `m`, and the class query on the attached value
when it is made) leave the host state as it was, the resolver leaves the host
state as it found it, whether it returns or raises: it makes no change of its
own. -/
theorem resolver_leaves_state_unchanged (h : Host σ) (s : σ) (klass m : VALUE)
    (hro : QueriesReadOnlyAt h s m) :
    (run h s klass m).state = s :=
  run_state_of_readOnlyAt h s klass m hro

/-- C7 amended, in the second host (where other dispatches do write): the
instance variables are the same after a call that returns (`obj.single`) and
after a call that raises (a plain object without `owner`). -/
theorem resolver_leaves_state_unchanged_witness :
    QueriesReadOnlyAt flipHost flipHeap mSingle ∧
    (run flipHost flipHeap cHook mSingle).result = .ok strC ∧
    (run flipHost flipHeap cHook mSingle).state = flipHeap ∧
    QueriesReadOnlyAt flipHost flipHeap instC ∧
    (run flipHost flipHeap cHook instC).result = .error eNoMethod ∧
    (run flipHost flipHeap cHook instC).state = flipHeap :=
  ⟨⟨rfl, fun _ => rfl⟩, rfl,
    resolver_leaves_state_unchanged flipHost flipHeap cHook mSingle ⟨rfl, fun _ => rfl⟩,
    rfl, rfl,
    resolver_leaves_state_unchanged flipHost flipHeap cHook instC rfl⟩

/-- C8: when the owner query answers `o`, let `a` be the `__attached__` value
of `o`.  If `a` is a class or module, the result is the name of `a` and the
calls made are the owner query, the lookup and the naming of `a`: no class
query.  Otherwise the result is the name of the class that the class query
answers for `a`. -/
theorem attached_branch_decides_subject (h : Host σ) (s s1 : σ) (klass m o : VALUE)
    (hown : h.rb_funcall s m (h.rb_intern "owner") = (.ok o, s1)) :
    (CLASS_OR_MODULE_P h s1 (h.rb_ivar_get s1 o (h.rb_intern "__attached__")) = true →
      (run h s klass m).result
        = .ok (h.rb_mod_name s1 (h.rb_ivar_get s1 o (h.rb_intern "__attached__"))) ∧
      (run h s klass m).trace =
        [Call.funcall m (h.rb_intern "owner"), Call.ivar_get o (h.rb_intern "__attached__"),
         Call.mod_name (h.rb_ivar_get s1 o (h.rb_intern "__attached__"))]) ∧
    (CLASS_OR_MODULE_P h s1 (h.rb_ivar_get s1 o (h.rb_intern "__attached__")) = false →
      ∀ (c : VALUE) (s2 : σ),
        h.rb_funcall s1 (h.rb_ivar_get s1 o (h.rb_intern "__attached__"))
          (h.rb_intern "class") = (.ok c, s2) →
        (run h s klass m).result = .ok (h.rb_mod_name s2 c) ∧
        (run h s klass m).trace =
          [Call.funcall m (h.rb_intern "owner"), Call.ivar_get o (h.rb_intern "__attached__"),
           Call.funcall (h.rb_ivar_get s1 o (h.rb_intern "__attached__"))
             (h.rb_intern "class"),
           Call.mod_name c]) := by
  constructor
  · intro hcm
    rw [run_direct h s s1 klass m o hown hcm]
    exact ⟨rfl, rfl⟩
  · intro hcm c s2 hcls
    rw [run_class_returns h s s1 s2 klass m o c hown hcm hcls]
    exact ⟨rfl, rfl⟩

/-- C8 at the concrete host: the class method takes the direct branch and the
singleton method of an instance takes the class-query branch. -/
theorem attached_branch_decides_subject_witness :
    demoHost.rb_funcall demoHeap mClassMethod (demoHost.rb_intern "owner")
      = (.ok sC, demoHeap) ∧
    demoHost.rb_funcall demoHeap mSingle (demoHost.rb_intern "owner")
      = (.ok sInstC, demoHeap) ∧
    (run demoHost demoHeap cHook mClassMethod).trace =
      [Call.funcall mClassMethod 1, Call.ivar_get sC 2, Call.mod_name cC] ∧
    (run demoHost demoHeap cHook mSingle).trace =
      [Call.funcall mSingle 1, Call.ivar_get sInstC 2, Call.funcall instC 3,
       Call.mod_name cC] :=
  ⟨rfl, rfl,
    ((attached_branch_decides_subject demoHost demoHeap demoHeap cHook mClassMethod sC
      rfl).1 rfl).2,
    ((attached_branch_decides_subject demoHost demoHeap demoHeap cHook mSingle sInstC
      rfl).2 rfl cC demoHeap rfl).2⟩

/-- C9: when the owner has no `__attached__` (the lookup yields `nil`, an
immediate), the resolver's result is the name of the class that the class query
answers for `nil`; and two methods whose owners both lack `__attached__`, the
owner queries leaving the host in the same state, get equal results, whatever
the owners are. -/
theorem missing_attached_names_class_of_nil (h : Host σ)
    (hnil : h.SPECIAL_CONST_P h.Qnil = true)
    (s s' s1 : σ) (klass m m' o o' : VALUE)
    (hown : h.rb_funcall s m (h.rb_intern "owner") = (.ok o, s1))
    (hatt : h.rb_ivar_get s1 o (h.rb_intern "__attached__") = h.Qnil)
    (hown' : h.rb_funcall s' m' (h.rb_intern "owner") = (.ok o', s1))
    (hatt' : h.rb_ivar_get s1 o' (h.rb_intern "__attached__") = h.Qnil) :
    (∀ (N : VALUE) (s2 : σ),
        h.rb_funcall s1 h.Qnil (h.rb_intern "class") = (.ok N, s2) →
        (run h s klass m).result = .ok (h.rb_mod_name s2 N)) ∧
    (run h s klass m).result = (run h s' klass m').result := by
  have hcm : CLASS_OR_MODULE_P h s1 (h.rb_ivar_get s1 o (h.rb_intern "__attached__")) = false := by
    simp [CLASS_OR_MODULE_P, hatt, hnil]
  have hcm' : CLASS_OR_MODULE_P h s1 (h.rb_ivar_get s1 o' (h.rb_intern "__attached__")) = false := by
    simp [CLASS_OR_MODULE_P, hatt', hnil]
  constructor
  · intro N s2 hcls
    rw [← hatt] at hcls
    rw [run_class_returns h s s1 s2 klass m o N hown hcm hcls]
  · rcases hcls : h.rb_funcall s1 h.Qnil (h.rb_intern "class") with ⟨r, s2⟩
    have hc := hcls
    have hc' := hcls
    rw [← hatt] at hc
    rw [← hatt'] at hc'
    cases r with
    | error e =>
      rw [run_class_raises h s s1 s2 klass m o e hown hcm hc,
        run_class_raises h s' s1 s2 klass m' o' e hown' hcm' hc']
    | ok N =>
      rw [run_class_returns h s s1 s2 klass m o N hown hcm hc,
        run_class_returns h s' s1 s2 klass m' o' N hown' hcm' hc']

/-- C9 at the concrete host: the method of the class named "C" and the method
of the anonymous class both resolve to the string "NilClass". -/
theorem missing_attached_names_class_of_nil_witness :
    demoHost.SPECIAL_CONST_P demoHost.Qnil = true ∧
    demoHost.rb_funcall demoHeap mNormal (demoHost.rb_intern "owner") = (.ok cC, demoHeap) ∧
    demoHost.rb_ivar_get demoHeap cC (demoHost.rb_intern "__attached__") = demoHost.Qnil ∧
    demoHost.rb_funcall demoHeap mAnonNormal (demoHost.rb_intern "owner")
      = (.ok cAnon, demoHeap) ∧
    demoHost.rb_ivar_get demoHeap cAnon (demoHost.rb_intern "__attached__") = demoHost.Qnil ∧
    (run demoHost demoHeap cHook mNormal).result = .ok strNilClass ∧
    (run demoHost demoHeap cHook mNormal).result
      = (run demoHost demoHeap cHook mAnonNormal).result :=
  ⟨rfl, rfl, rfl, rfl, rfl,
    (missing_attached_names_class_of_nil demoHost rfl demoHeap demoHeap demoHeap cHook
      mNormal mAnonNormal cC cAnon rfl rfl rfl rfl).1 cNilClass demoHeap rfl,
    (missing_attached_names_class_of_nil demoHost rfl demoHeap demoHeap demoHeap cHook
      mNormal mAnonNormal cC cAnon rfl rfl rfl rfl).2⟩

/-- C10: on a host whose class query answers only classes or modules, every
run of the resolver that returns has called `rb_mod_name`, and every value it
was called on is a class or module in the final state, hence not an immediate
such as `nil`. -/
theorem naming_applied_to_class_or_module_only (h : Host σ)
    (hcq : ClassQueryAnswersClass h) (s : σ) (klass m name : VALUE)
    (hret : (run h s klass m).result = .ok name) :
    (∃ v : VALUE, Call.mod_name v ∈ (run h s klass m).trace) ∧
    ∀ v : VALUE, Call.mod_name v ∈ (run h s klass m).trace →
      CLASS_OR_MODULE_P h (run h s klass m).state v = true ∧ h.SPECIAL_CONST_P v = false := by
  have hsc : ∀ (t : σ) (v : VALUE), CLASS_OR_MODULE_P h t v = true →
      CLASS_OR_MODULE_P h t v = true ∧ h.SPECIAL_CONST_P v = false := by
    intro t v hv
    refine ⟨hv, ?_⟩
    simp only [CLASS_OR_MODULE_P, Bool.and_eq_true, Bool.not_eq_true'] at hv
    exact hv.1
  rcases hown : h.rb_funcall s m (h.rb_intern "owner") with ⟨r, s1⟩
  cases r with
  | error e =>
    rw [run_owner_raises h s s1 klass m e hown] at hret
    cases hret
  | ok o =>
    cases hcm : CLASS_OR_MODULE_P h s1 (h.rb_ivar_get s1 o (h.rb_intern "__attached__")) with
    | true =>
      rw [run_direct h s s1 klass m o hown hcm]
      refine ⟨⟨h.rb_ivar_get s1 o (h.rb_intern "__attached__"), by simp⟩, ?_⟩
      intro v hv
      simp at hv
      subst hv
      exact hsc _ _ hcm
    | false =>
      rcases hcls : h.rb_funcall s1 (h.rb_ivar_get s1 o (h.rb_intern "__attached__"))
        (h.rb_intern "class") with ⟨r2, s2⟩
      cases r2 with
      | error e =>
        rw [run_class_raises h s s1 s2 klass m o e hown hcm hcls] at hret
        cases hret
      | ok c =>
        rw [run_class_returns h s s1 s2 klass m o c hown hcm hcls]
        refine ⟨⟨c, by simp⟩, ?_⟩
        intro v hv
        simp at hv
        subst hv
        exact hsc _ _ (hcq s1 s2 _ v hcls)

/-- C10 at the concrete host, for a method defined normally on `C`: the
`__attached__` lookup yields `nil`, and the value named is `NilClass`, a class. -/
theorem naming_applied_to_class_or_module_only_witness :
    ClassQueryAnswersClass demoHost ∧
    (run demoHost demoHeap cHook mNormal).result = .ok strNilClass ∧
    Call.mod_name cNilClass ∈ (run demoHost demoHeap cHook mNormal).trace ∧
    CLASS_OR_MODULE_P demoHost (run demoHost demoHeap cHook mNormal).state cNilClass = true :=
  ⟨demoHost_classQuery, rfl, by decide,
    ((naming_applied_to_class_or_module_only demoHost demoHost_classQuery demoHeap cHook
      mNormal strNilClass rfl).2 cNilClass (by decide)).1⟩

end Claims

end AppMap
